import Mathlib

/-!
# Verification of the SpreadSheetMock formula front end

A shallow embedding of `src/ss/formula.js`: the `LEXER` regular expression,
the `tokenize` generator and the recursive-descent `Parser` class, together
with theorems settling the specification's claims about them.

Strings are modelled as `List Char` at the scanning level and as `String`
(a structure holding a `List Char`) at the token/AST level.  JavaScript
exceptions are modelled by `Except String`, carrying the `Error` message.
Loops and the mutual grammar recursion are written with an explicit fuel
parameter; every recursive step consumes at least one token or character,
so the fuel supplied by the entry points is always sufficient, and the
fuel-exhaustion branch is unreachable there.
-/

namespace SpreadSheetMock

/-- Token kinds: one per named group of the `LEXER` regular expression in
`src/ss/formula.js`, plus the synthetic `eof` kind that the parser's
`advance` substitutes for an exhausted token stream. -/
inductive TokenType where
  | lparen | rparen | plus | minus | value | quoted
  | times | divided | comma | whitespace | eof
deriving DecidableEq, Repr

/-- The human-readable description of each token kind
(the `TOKEN_TYPES` table in `src/ss/formula.js`). -/
def TOKEN_TYPES : TokenType → String
  | .lparen => "("
  | .rparen => ")"
  | .plus => "+"
  | .minus => "-"
  | .value => "a literal value"
  | .quoted => "a quoted string"
  | .times => "*"
  | .divided => "/"
  | .comma => ","
  | .whitespace => "whitespace"
  | .eof => "[end of string]"

/-- A token: `{type, text}` as produced by `tokenize`. -/
structure Token where
  type : TokenType
  text : String
deriving DecidableEq, Repr

/-- The character class `[a-zA-Z0-9:-]` of the `value` group of `LEXER`
(ASCII letters, ASCII digits, colon, hyphen). -/
def isValueChar (c : Char) : Bool :=
  ('a' ≤ c && c ≤ 'z') || ('A' ≤ c && c ≤ 'Z') || ('0' ≤ c && c ≤ '9')
    || c = ':' || c = '-'

/-- JavaScript's `\s` character class, used by the `whitespace` group of
`LEXER`: ASCII whitespace plus the Unicode space separators, line/paragraph
separators, NBSP and the BOM. -/
def isJsSpace (c : Char) : Bool :=
  c = ' ' || c = '\t' || c = '\n' || c = '\r' || c.val = 11 || c.val = 12
    || c.val = 0xa0 || c.val = 0x1680
    || (0x2000 ≤ c.val && c.val ≤ 0x200a)
    || c.val = 0x2028 || c.val = 0x2029 || c.val = 0x202f || c.val = 0x205f
    || c.val = 0x3000 || c.val = 0xfeff

/-- Match one literal character at the head of the input: the
single-character alternatives of `LEXER` (`\(`, `\)`, `\+`, `-`, `\*`, `/`,
`,`). Returns the matched text. -/
def matchChar (ch : Char) : List Char → Option (List Char)
  | [] => none
  | c :: _ => if c = ch then some [c] else none

/-- Match a greedy, non-empty run of characters satisfying `p` at the head
of the input: the `[...]+` alternatives of `LEXER` (`value`, `whitespace`). -/
def matchRun (p : Char → Bool) (s : List Char) : Option (List Char) :=
  let run := s.takeWhile p
  if run.isEmpty then none else some run

/-- Match the `quoted` alternative `"[^"]+"` of `LEXER` at the head of the
input: a double quote, at least one non-quote character, a double quote. -/
def matchQuoted : List Char → Option (List Char)
  | [] => none
  | c :: rest =>
    if c = '"' then
      let body := rest.takeWhile (fun d => d ≠ '"')
      if body.isEmpty then none
      else
        match rest.drop body.length with
        | [] => none
        | d :: _ => if d = '"' then some ('"' :: (body ++ ['"'])) else none
    else none

/-- The alternatives of `LEXER`, in source order: the regular expression's
alternation tries them left to right at each position and the first
matching group wins. -/
def MATCHERS : List (TokenType × (List Char → Option (List Char))) :=
  [(.lparen, matchChar '('),
   (.rparen, matchChar ')'),
   (.plus, matchChar '+'),
   (.minus, matchChar '-'),
   (.value, matchRun isValueChar),
   (.quoted, matchQuoted),
   (.times, matchChar '*'),
   (.divided, matchChar '/'),
   (.comma, matchChar ','),
   (.whitespace, matchRun isJsSpace)]

/-- Try a list of alternatives at the start of the input and return the
first kind that matches, with its matched text. -/
def firstMatch : List (TokenType × (List Char → Option (List Char))) →
    List Char → Option (TokenType × List Char)
  | [], _ => none
  | (ty, m) :: ms, s =>
    match m s with
    | some txt => some (ty, txt)
    | none => firstMatch ms s

/-- One attempt of the whole `LEXER` alternation at the start of `s`. -/
def matchToken (s : List Char) : Option (TokenType × List Char) :=
  firstMatch MATCHERS s

/-- One `LEXER.exec` step of the global regular expression: scan forward
from the current position for the first offset where some alternative
matches.  Returns the number of characters skipped, the matching kind and
the matched text, or `none` when no match exists in the rest of the input. -/
def findMatch : List Char → Option (Nat × TokenType × List Char)
  | [] => none
  | c :: rest =>
    match matchToken (c :: rest) with
    | some (ty, txt) => some (0, ty, txt)
    | none => (findMatch rest).map (fun r => (r.1 + 1, r.2.1, r.2.2))

/-- One pull on the `tokenize` generator of `src/ss/formula.js`, starting
from the unconsumed suffix `rest` of the input:
* `exec` finds no further match: if nothing is left the generator
  completes (`.ok none`), otherwise the trailing check throws
  `"Unexpected token end " + code.charAt(expectedNextToken)`;
* `exec` matches after skipping characters (`m.index != expectedNextToken`):
  throws `"Unexpected token " + code.charAt(expectedNextToken)`;
* `exec` matches in place: yields the token and the remaining suffix. -/
def nextToken (rest : List Char) : Except String (Option (Token × List Char)) :=
  match findMatch rest with
  | none =>
    if rest.isEmpty then .ok none
    else .error ("Unexpected token end " ++ String.mk (rest.take 1))
  | some (skip, ty, txt) =>
    if skip = 0 then .ok (some (⟨ty, String.mk txt⟩, rest.drop txt.length))
    else .error ("Unexpected token " ++ String.mk (rest.take 1))

/-- The `tokenize` generator run to completion: the list of all tokens it
yields, or the error it throws.  `fuel` bounds the number of pulls; every
yielded token is non-empty, so `code.length + 1` is always enough. -/
def tokenize : Nat → List Char → Except String (List Token)
  | 0, _ => .error "[out of fuel]"
  | fuel + 1, rest =>
    match nextToken rest with
    | .error e => .error e
    | .ok none => .ok []
    | .ok (some (t, rest')) =>
      match tokenize fuel rest' with
      | .error e => .error e
      | .ok ts => .ok (t :: ts)

/-- A JavaScript value as the parser builds them: an expression-tree node is
either a string (a leaf) or an array of nodes (an operator or function
application such as `['+', left, right]`). -/
inductive JsVal where
  | str : String → JsVal
  | arr : List JsVal → JsVal

/-- The `FUNCTION_NAME` test `/^[a-zA-Z]+$/`: non-empty, ASCII letters only. -/
def FUNCTION_NAME (s : String) : Bool :=
  !s.isEmpty && s.data.all (fun c => ('a' ≤ c && c ≤ 'z') || ('A' ≤ c && c ≤ 'Z'))

/-- `text.replace(/(^"|"$)/g, '')` as applied to a `quoted` token: remove a
double quote at the start and a double quote at the end, if present. -/
def stripQuotes (s : String) : String :=
  let l :=
    match s.data with
    | '"' :: rest => rest
    | l => l
  String.mk (if l.getLast? = some '"' then l.dropLast else l)

/-- The parser's cursor: the current lookahead token `cur`, the unconsumed
suffix of the input (the lazy `tokenize` generator's remaining characters),
and the insertion-ordered set of token kinds attempted against `cur` since
the last advance (`attemptedTypes`, a JavaScript `Set`). -/
structure ParserState where
  cur : Token
  rest : List Char
  attemptedTypes : List TokenType
deriving DecidableEq, Repr

/-- Insertion into a JavaScript `Set` kept as an insertion-ordered list:
appends the element unless already present. -/
def addAttempted (ty : TokenType) (l : List TokenType) : List TokenType :=
  if ty ∈ l then l else l ++ [ty]

/-- The synthetic token `{type: 'eof', text: ''}` that `advance` installs
when the token stream is exhausted. -/
def eofToken : Token := ⟨.eof, ""⟩

/-- `Parser.advance`: pull the next token from the (lazy) tokenizer,
substituting the `eof` token at the end of the stream, and skip over
whitespace tokens.  Errors thrown by the tokenizer propagate.  Each pull
consumes at least one character, so fuel `rest.length + 1` is enough. -/
def advance : Nat → List Char → Except String (Token × List Char)
  | 0, _ => .error "[out of fuel]"
  | fuel + 1, rest =>
    match nextToken rest with
    | .error e => .error e
    | .ok none => .ok (eofToken, [])
    | .ok (some (t, rest')) =>
      if t.type = .whitespace then advance fuel rest' else .ok (t, rest')

/-- `Parser.consume(type)`: if the lookahead has kind `ty`, return it and
advance (which clears `attemptedTypes`); otherwise record `ty` in
`attemptedTypes` and return `none` without consuming. -/
def consume (fuel : Nat) (ty : TokenType) (st : ParserState) :
    Except String (Option Token × ParserState) :=
  if st.cur.type = ty then
    match advance fuel st.rest with
    | .error e => .error e
    | .ok (t, rest') => .ok (some st.cur, ⟨t, rest', []⟩)
  else
    .ok (none, ⟨st.cur, st.rest, addAttempted ty st.attemptedTypes⟩)

/-- The message built by `Parser.throwUnexpectedToken`: every attempted kind
mapped through `TOKEN_TYPES` and joined with `", "`, then the literal text
of the current token in single quotes, or the end-of-string marker. -/
def unexpectedMessage (st : ParserState) : String :=
  "Expected one of: "
    ++ String.intercalate ", " (st.attemptedTypes.map TOKEN_TYPES)
    ++ "; got "
    ++ (if st.cur.type = .eof then TOKEN_TYPES .eof else "'" ++ st.cur.text ++ "'")

/-- `Parser.throwUnexpectedToken`. -/
def throwUnexpectedToken {α : Type} (st : ParserState) : Except String α :=
  .error (unexpectedMessage st)

/-- `Parser.expect(type)`: like `consume`, but a non-match becomes a
terminal parse failure via `throwUnexpectedToken` (with `ty` recorded in
the attempted set first, by `consume`). -/
def expect (fuel : Nat) (ty : TokenType) (st : ParserState) :
    Except String ParserState := do
  let (tk, st') ← consume fuel ty st
  match tk with
  | some _ => .ok st'
  | none => throwUnexpectedToken st'

mutual

/-- `Parser.toplevel`: an expression followed by end of input. -/
def toplevel : Nat → ParserState → Except String (JsVal × ParserState)
  | 0, _ => .error "[out of fuel]"
  | fuel + 1, st => do
    let (tm, st) ← expr fuel st
    let st ← expect fuel .eof st
    .ok (tm, st)

/-- `Parser.expr`. -/
def expr : Nat → ParserState → Except String (JsVal × ParserState)
  | 0, _ => .error "[out of fuel]"
  | fuel + 1, st => sum fuel st

/-- `Parser.sum`: a summand followed by the additive-operator loop. -/
def sum : Nat → ParserState → Except String (JsVal × ParserState)
  | 0, _ => .error "[out of fuel]"
  | fuel + 1, st => do
    let (tm, st) ← summand fuel st
    sumLoop fuel tm st

/-- The `while (true)` loop of `Parser.sum`: as long as a `+` or `-` token
is consumed, parse another summand and extend the node to the left. -/
def sumLoop : Nat → JsVal → ParserState → Except String (JsVal × ParserState)
  | 0, _, _ => .error "[out of fuel]"
  | fuel + 1, tm, st => do
    let (p, st) ← consume fuel .plus st
    match p with
    | some _ => do
      let (rhs, st) ← summand fuel st
      sumLoop fuel (.arr [.str "+", tm, rhs]) st
    | none => do
      let (m, st) ← consume fuel .minus st
      match m with
      | some _ => do
        let (rhs, st) ← summand fuel st
        sumLoop fuel (.arr [.str "-", tm, rhs]) st
      | none => .ok (tm, st)

/-- `Parser.summand`: a factor followed by the multiplicative-operator loop. -/
def summand : Nat → ParserState → Except String (JsVal × ParserState)
  | 0, _ => .error "[out of fuel]"
  | fuel + 1, st => do
    let (tm, st) ← factor fuel st
    summandLoop fuel tm st

/-- The `while (true)` loop of `Parser.summand`: as long as a `*` or `/`
token is consumed, parse another factor and extend the node to the left. -/
def summandLoop : Nat → JsVal → ParserState → Except String (JsVal × ParserState)
  | 0, _, _ => .error "[out of fuel]"
  | fuel + 1, tm, st => do
    let (t, st) ← consume fuel .times st
    match t with
    | some _ => do
      let (rhs, st) ← factor fuel st
      summandLoop fuel (.arr [.str "*", tm, rhs]) st
    | none => do
      let (d, st) ← consume fuel .divided st
      match d with
      | some _ => do
        let (rhs, st) ← factor fuel st
        summandLoop fuel (.arr [.str "/", tm, rhs]) st
      | none => .ok (tm, st)

/-- `Parser.factor`: a `value` token (possibly the head of a function call
when it is immediately followed by `(`), a `quoted` token with its quotes
stripped, or a parenthesised expression; anything else is a terminal
parse failure. -/
def factor : Nat → ParserState → Except String (JsVal × ParserState)
  | 0, _ => .error "[out of fuel]"
  | fuel + 1, st => do
    let (v, st) ← consume fuel .value st
    match v with
    | some tm => do
      let (lp, st) ← consume fuel .lparen st
      match lp with
      | some _ =>
        if FUNCTION_NAME tm.text then do
          let (args, st) ← arglist fuel st
          let st ← expect fuel .rparen st
          .ok (.arr (.str tm.text :: args), st)
        else
          .error (tm.text ++ " is not a valid function name")
      | none => .ok (.str tm.text, st)
    | none => do
      let (q, st) ← consume fuel .quoted st
      match q with
      | some tm => .ok (.str (stripQuotes tm.text), st)
      | none => do
        let (lp, st) ← consume fuel .lparen st
        match lp with
        | some _ => do
          let (tm, st) ← expr fuel st
          let st ← expect fuel .rparen st
          .ok (tm, st)
        | none => throwUnexpectedToken st

/-- `Parser.arglist`.  The source body is
`var tm = [this.expr()]; while (this.consume('comma')) { tm.push(this.consume(expr)); }`
where `expr` is an unbound identifier (the method is `this.expr`):
evaluating the argument of the push throws
`ReferenceError: expr is not defined` as soon as a comma is consumed.
We embed that thrown error by its message.  Note the failed-or-successful
`consume('comma')` still updates the cursor state first. -/
def arglist : Nat → ParserState → Except String (List JsVal × ParserState)
  | 0, _ => .error "[out of fuel]"
  | fuel + 1, st => do
    let (e, st) ← expr fuel st
    let (c, st) ← consume fuel .comma st
    match c with
    | some _ => .error "expr is not defined"
    | none => .ok ([e], st)

end

/-- The `parse` entry point: build a parser on the lazy token stream of
`code` (the constructor advances once) and run `toplevel`.  The fuel
`16 * (code.length + 1)` dominates the parser's call depth and loop count,
both of which are linear in the input length with a small constant. -/
def parse (code : String) : Except String JsVal :=
  let fuel := 16 * (code.data.length + 1)
  match advance fuel code.data with
  | .error e => .error e
  | .ok (t, rest) =>
    match toplevel fuel ⟨t, rest, []⟩ with
    | .error e => .error e
    | .ok (v, _) => .ok v

/-- Modelled from the spec (refinement target): the matching-policy
priority order as the spec words it — "parenthesis and single-character
operator/comma kinds first, then the greedy bare-value pattern (letters,
digits, colon, hyphen), then quoted text, then whitespace". -/
def SPEC_ORDER_MATCHERS : List (TokenType × (List Char → Option (List Char))) :=
  [(.lparen, matchChar '('),
   (.rparen, matchChar ')'),
   (.plus, matchChar '+'),
   (.minus, matchChar '-'),
   (.times, matchChar '*'),
   (.divided, matchChar '/'),
   (.comma, matchChar ','),
   (.value, matchRun isValueChar),
   (.quoted, matchQuoted),
   (.whitespace, matchRun isJsSpace)]

/-- Modelled from the spec: the first kind, in the spec's priority order,
that matches at the start of `s`. -/
def specMatchToken (s : List Char) : Option (TokenType × List Char) :=
  firstMatch SPEC_ORDER_MATCHERS s

/-- Whether `pat` occurs at the start of the second list. -/
def startsWithChars : List Char → List Char → Bool
  | [], _ => true
  | _ :: _, [] => false
  | p :: ps, c :: cs => p == c && startsWithChars ps cs

/-- Whether `pat` occurs anywhere in the second list. -/
def hasSubChars (pat : List Char) : List Char → Bool
  | [] => startsWithChars pat []
  | c :: cs => startsWithChars pat (c :: cs) || hasSubChars pat cs

/-- Whether the string `pat` occurs anywhere in the string `s`
(used to state what an error message does and does not mention). -/
def strContains (s pat : String) : Bool :=
  hasSubChars pat.data s.data

/-- C1: contrary to the claim, `parse "sum(A1, B2)"` does not return
`["sum", "A1", "B2"]`: as soon as `arglist` consumes the comma, the body of
its `while` loop evaluates the unbound identifier `expr` and throws
`ReferenceError: expr is not defined`.  A single-argument call (no comma)
does produce the intended call node, showing the failure is precisely the
post-comma path. -/
theorem arglist_comma_reference_error :
    parse "sum(A1, B2)" = .error "expr is not defined" ∧
    parse "sum(A1)" = .ok (.arr [.str "sum", .str "A1"]) :=
  ⟨rfl, rfl⟩

/-- C3 counterexample: the lex-gap error for `parse "1 $ 2"` is exactly
`"Unexpected token $"`; it names the offending character `$` but contains
no occurrence of `"2"`, so it does not name the offset 2. -/
theorem lexgap_error_counterexample :
    parse "1 $ 2" = .error "Unexpected token $" ∧
    strContains "Unexpected token $" "$" = true ∧
    strContains "Unexpected token $" "2" = false :=
  ⟨rfl, rfl, rfl⟩

/-- C3 amended: when no token pattern matches at the current scan position,
the error names the offending character — the character at the failing
offset (offset 2 for `"1 $ 2"`) — but not the offset itself. -/
theorem lexgap_error_names_character :
    parse "1 $ 2" = .error ("Unexpected token " ++ String.mk (("1 $ 2".data.drop 2).take 1)) ∧
    strContains "Unexpected token $" "2" = false :=
  ⟨rfl, rfl⟩

/-- C5 counterexample: `"-5"` is not a single bare-value token and does not
parse as one leaf. -/
theorem unary_minus_counterexample :
    tokenize 3 "-5".data ≠ .ok [⟨.value, "-5"⟩] ∧
    parse "-5" ≠ .ok (.str "-5") := by
  constructor
  · intro h
    rw [show tokenize 3 "-5".data =
        .ok [⟨.minus, "-"⟩, ⟨.value, "5"⟩] from rfl] at h
    exact absurd (Except.ok.inj h) (by decide)
  · intro h
    rw [show parse "-5" =
        .error "Expected one of: a literal value, a quoted string, (; got '-'" from rfl] at h
    exact Except.noConfusion h

/-- C5 amended: the grammar has no unary-minus production, and the greedy
bare-value pattern never gets to absorb a *leading* hyphen: the
single-character minus alternative is tried before it, so any input
starting with a hyphen begins with a minus token, `"-5"` tokenizes as
`'-'`, `'5'`, and `parse "-5"` fails. -/
theorem leading_hyphen_lexes_as_minus :
    (∀ rest : List Char, matchToken ('-' :: rest) = some (.minus, ['-'])) ∧
    tokenize 3 "-5".data = .ok [⟨.minus, "-"⟩, ⟨.value, "5"⟩] ∧
    parse "-5" = .error "Expected one of: a literal value, a quoted string, (; got '-'" :=
  ⟨fun _ => rfl, rfl, rfl⟩

/-- C6: `+`/`-` bind looser than `*`/`/`:
`parse "1 + 2 * 3"` is `["+", "1", ["*", "2", "3"]]`, and likewise with
the other operator of each tier. -/
theorem precedence_example :
    parse "1 + 2 * 3" = .ok (.arr [.str "+", .str "1", .arr [.str "*", .str "2", .str "3"]]) ∧
    parse "8 - 6 / 2" = .ok (.arr [.str "-", .str "8", .arr [.str "/", .str "6", .str "2"]]) :=
  ⟨rfl, rfl⟩

/-- C7: same-tier operators are left-associative:
`parse "1 - 2 - 3"` is `["-", ["-", "1", "2"], "3"]`. -/
theorem left_assoc_example :
    parse "1 - 2 - 3" = .ok (.arr [.str "-", .arr [.str "-", .str "1", .str "2"], .str "3"]) :=
  rfl

/-- C8: `parse "1 +"`, whose token stream ends where a factor is required,
fails with a message that names every kind attempted at that position —
`(`, the bare-value description and the quoted-text description — and
reports end-of-input as what was found. -/
theorem premature_end_error :
    parse "1 +" =
      .error "Expected one of: a literal value, a quoted string, (; got [end of string]" ∧
    strContains "Expected one of: a literal value, a quoted string, (; got [end of string]"
      "(" = true ∧
    strContains "Expected one of: a literal value, a quoted string, (; got [end of string]"
      "a literal value" = true ∧
    strContains "Expected one of: a literal value, a quoted string, (; got [end of string]"
      "a quoted string" = true ∧
    strContains "Expected one of: a literal value, a quoted string, (; got [end of string]"
      "[end of string]" = true :=
  ⟨rfl, rfl, rfl, rfl, rfl⟩

/-- C9: the quoted-text pattern `"[^"]+"` needs at least one character
between the quotes, so the two-character input `""` has no match anywhere
and tokenization raises a lex error; `parse` propagates it rather than
returning an empty-string leaf. -/
theorem empty_quoted_lex_error :
    matchQuoted ['"', '"'] = none ∧
    tokenize 3 "\"\"".data = .error "Unexpected token end \"" ∧
    parse "\"\"" = .error "Unexpected token end \"" :=
  ⟨rfl, rfl, rfl⟩

/-- C10: a hyphen between two alphanumeric runs, with no whitespace around
it, is absorbed into a single bare-value token: `"1-2"` tokenizes as the
one token `1-2` and parses as the single leaf `"1-2"`, not as a
subtraction. -/
theorem hyphen_absorbed_into_value :
    tokenize 4 "1-2".data = .ok [⟨.value, "1-2"⟩] ∧
    parse "1-2" = .ok (.str "1-2") :=
  ⟨rfl, rfl⟩

/-- A prefix of a list, followed by the rest of the list, is the list. -/
theorem prefix_append_drop {l₁ l₂ : List Char} (h : l₁ <+: l₂) :
    l₁ ++ l₂.drop l₁.length = l₂ := by
  obtain ⟨t, rfl⟩ := h
  rw [List.drop_left]

/-- Text matched by a single-character alternative is a prefix of the input. -/
theorem matchChar_prefix {ch : Char} {s txt : List Char}
    (h : matchChar ch s = some txt) : txt <+: s := by
  cases s with
  | nil => simp [matchChar] at h
  | cons c cs =>
    simp only [matchChar] at h
    split at h
    · obtain rfl := Option.some.inj h
      exact ⟨cs, rfl⟩
    · exact absurd h (by simp)

/-- Text matched by a greedy-run alternative is a prefix of the input. -/
theorem matchRun_prefix {p : Char → Bool} {s txt : List Char}
    (h : matchRun p s = some txt) : txt <+: s := by
  simp only [matchRun] at h
  split at h
  · exact absurd h (by simp)
  · obtain rfl := Option.some.inj h
    exact List.takeWhile_prefix p

/-- Text matched by the quoted-text alternative is a prefix of the input. -/
theorem matchQuoted_prefix {s txt : List Char}
    (h : matchQuoted s = some txt) : txt <+: s := by
  cases s with
  | nil => simp [matchQuoted] at h
  | cons c cs =>
    simp only [matchQuoted] at h
    split at h
    · rename_i hc
      split at h
      · exact absurd h (by simp)
      · split at h
        · exact absurd h (by simp)
        · rename_i d tail heq
          split at h
          · rename_i hdq
            obtain rfl := Option.some.inj h
            subst hdq
            have hcs := prefix_append_drop
              (@List.takeWhile_prefix Char cs (fun x => decide (x ≠ '"')))
            rw [heq] at hcs
            subst hc
            refine ⟨tail, ?_⟩
            simp only [List.cons_append, List.append_assoc, List.singleton_append,
              List.nil_append]
            rw [hcs]
          · exact absurd h (by simp)
    · exact absurd h (by simp)

/-- If every alternative in a matcher list only matches prefixes of the
input, so does their first-match combination. -/
theorem firstMatch_prefix {ms : List (TokenType × (List Char → Option (List Char)))}
    (hms : ∀ pr ∈ ms, ∀ s txt, pr.2 s = some txt → txt <+: s)
    {s txt : List Char} {ty : TokenType}
    (h : firstMatch ms s = some (ty, txt)) : txt <+: s := by
  induction ms with
  | nil => simp [firstMatch] at h
  | cons pr ms ih =>
    obtain ⟨ty0, m⟩ := pr
    cases hm : m s with
    | some txt0 =>
      simp only [firstMatch, hm, Option.some.injEq, Prod.mk.injEq] at h
      obtain ⟨rfl, rfl⟩ := h
      exact hms _ (List.mem_cons_self _ _) _ _ hm
    | none =>
      simp only [firstMatch, hm] at h
      exact ih (fun pr hpr => hms pr (List.mem_cons_of_mem _ hpr)) h

/-- The text matched by one attempt of the `LEXER` alternation is a prefix
of the input. -/
theorem matchToken_prefix {s txt : List Char} {ty : TokenType}
    (h : matchToken s = some (ty, txt)) : txt <+: s := by
  refine firstMatch_prefix ?_ h
  intro pr hpr
  simp only [MATCHERS, List.mem_cons, List.not_mem_nil, or_false] at hpr
  rcases hpr with rfl | rfl | rfl | rfl | rfl | rfl | rfl | rfl | rfl | rfl <;>
    intro s txt h <;>
    first
      | exact matchChar_prefix h
      | exact matchRun_prefix h
      | exact matchQuoted_prefix h

/-- A scan that matched without skipping matched at the very start. -/
theorem findMatch_eq_zero {code : List Char} {ty : TokenType} {txt : List Char}
    (h : findMatch code = some (0, ty, txt)) : matchToken code = some (ty, txt) := by
  cases code with
  | nil => simp [findMatch] at h
  | cons c rest =>
    cases hm : matchToken (c :: rest) with
    | some p =>
      obtain ⟨p1, p2⟩ := p
      simp only [findMatch, hm, Option.some.injEq, Prod.mk.injEq] at h
      obtain ⟨-, rfl, rfl⟩ := h
      rfl
    | none =>
      simp only [findMatch, hm] at h
      cases hf : findMatch rest with
      | none => simp [hf] at h
      | some r => simp [hf] at h

/-- The tokenizer only completes (yields no further token) when the whole
input has been consumed. -/
theorem nextToken_ok_none {code : List Char}
    (h : nextToken code = .ok none) : code = [] := by
  cases hf : findMatch code with
  | none =>
    simp only [nextToken, hf] at h
    split at h
    · rename_i hemp
      exact List.isEmpty_iff.mp hemp
    · exact absurd h (by simp)
  | some r =>
    obtain ⟨skip, ty, txt⟩ := r
    simp only [nextToken, hf] at h
    split at h <;> exact absurd h (by simp)

/-- A yielded token was matched at the current scan position (no gap), and
the scan resumes exactly after its text. -/
theorem nextToken_ok_some {code : List Char} {t : Token} {rest : List Char}
    (h : nextToken code = .ok (some (t, rest))) :
    matchToken code = some (t.type, t.text.data) ∧ rest = code.drop t.text.data.length := by
  cases hf : findMatch code with
  | none =>
    simp only [nextToken, hf] at h
    split at h <;> exact absurd h (by simp)
  | some r =>
    obtain ⟨skip, ty, txt⟩ := r
    simp only [nextToken, hf] at h
    split at h
    · rename_i hskip
      subst hskip
      simp only [Except.ok.injEq, Option.some.injEq, Prod.mk.injEq] at h
      obtain ⟨rfl, rfl⟩ := h
      exact ⟨findMatch_eq_zero hf, rfl⟩
    · exact absurd h (by simp)

/-- When the tokenizer completes, the matched texts concatenate, in order,
to exactly the input. -/
theorem tokenize_ok_flatten {fuel : Nat} {code : List Char} {ts : List Token}
    (h : tokenize fuel code = .ok ts) :
    (ts.map (fun t => t.text.data)).flatten = code := by
  induction fuel generalizing code ts with
  | zero => simp [tokenize] at h
  | succ n ih =>
    cases hnt : nextToken code with
    | error e => simp only [tokenize, hnt] at h; exact absurd h (by simp)
    | ok o =>
      cases o with
      | none =>
        simp only [tokenize, hnt, Except.ok.injEq] at h
        subst h
        rw [nextToken_ok_none hnt]
        rfl
      | some p =>
        obtain ⟨t, rest⟩ := p
        cases hrec : tokenize n rest with
        | error e => simp only [tokenize, hnt, hrec] at h; exact absurd h (by simp)
        | ok ts2 =>
          simp only [tokenize, hnt, hrec, Except.ok.injEq] at h
          subst h
          obtain ⟨hm, rfl⟩ := nextToken_ok_some hnt
          have hpre := matchToken_prefix hm
          have hrest := ih hrec
          simp only [List.map_cons, List.flatten_cons, hrest]
          exact prefix_append_drop hpre

/-- C2: whenever `tokenize` yields a complete token stream without raising
(any fuel, any input), the concatenation of the yielded tokens' matched
texts, in order, is exactly the input, and the sum of their lengths is the
input length; a gap or leftover input can only surface as an error value,
never as a completed stream. -/
theorem tokenize_coverage {fuel : Nat} {code : List Char} {ts : List Token}
    (h : tokenize fuel code = .ok ts) :
    (ts.map (fun t => t.text.data)).flatten = code ∧
    (ts.map (fun t => t.text.length)).sum = code.length := by
  have hj := tokenize_ok_flatten h
  refine ⟨hj, ?_⟩
  have hlen := congrArg List.length hj
  rw [← hlen, List.length_flatten, List.map_map]
  rfl

/-- Witness for C2 at the concrete input `"1 + 2"`. -/
theorem tokenize_coverage_witness :
    (([⟨.value, "1"⟩, ⟨.whitespace, " "⟩, ⟨.plus, "+"⟩, ⟨.whitespace, " "⟩,
        ⟨.value, "2"⟩] : List Token).map (fun t => t.text.data)).flatten = "1 + 2".data ∧
    (([⟨.value, "1"⟩, ⟨.whitespace, " "⟩, ⟨.plus, "+"⟩, ⟨.whitespace, " "⟩,
        ⟨.value, "2"⟩] : List Token).map (fun t => t.text.length)).sum = "1 + 2".data.length :=
  @tokenize_coverage 6 ("1 + 2".data)
    [⟨.value, "1"⟩, ⟨.whitespace, " "⟩, ⟨.plus, "+"⟩, ⟨.whitespace, " "⟩, ⟨.value, "2"⟩] rfl

/-- C4: the tokenizer's matching policy is, observably, the spec's fixed
priority order — at every scan position the produced match of the source
`LEXER` alternation equals the first kind that matches in the order
"parenthesis and single-character operator/comma kinds, then the bare-value
pattern, then quoted text, then whitespace".  (The source order lists `*`,
`/` and `,` after the bare-value and quoted patterns, but no input can
reach those kinds through the earlier patterns, so the two orders agree on
every input.) -/
theorem lexer_priority_order (s : List Char) : matchToken s = specMatchToken s := by
  cases s with
  | nil => rfl
  | cons c rest =>
    by_cases h1 : c = '('
    · subst h1; rfl
    by_cases h2 : c = ')'
    · subst h2; rfl
    by_cases h3 : c = '+'
    · subst h3; rfl
    by_cases h4 : c = '-'
    · subst h4; rfl
    by_cases h5 : c = '*'
    · subst h5; rfl
    by_cases h6 : c = '/'
    · subst h6; rfl
    by_cases h7 : c = ','
    · subst h7; rfl
    simp [matchToken, specMatchToken, MATCHERS, SPEC_ORDER_MATCHERS, firstMatch,
      matchChar, h1, h2, h3, h4, h5, h6, h7]

end SpreadSheetMock
